import Mathlib

/-!
Verification of the `dcs-simulation-engine` execution engine against its
natural-language specification.

The development shallowly embeds the engine's core Python modules
(`core/simulation_graph/state.py`, `subgraph.py`, `core.py`, `conditions.py`,
`config.py`, and `core/run_manager.py`) as executable Lean definitions and
proves the spec's testable properties about them.  Machine-level effects that
the embedded code merely delegates to (logging, wall-clock reads, the LLM
transport, pickling size checks) are not modelled; everything that decides the
claims (control flow, state merging, string handling, arithmetic) is
translated directly from the source.
-/

namespace DCS

/-- `state.py`: the `lifecycle` literal of `SimulationGraphState`. -/
inductive Lifecycle where
  | INIT
  | ENTER
  | UPDATE
  | EXIT
  | COMPLETE
deriving DecidableEq, Repr

/-- `state.py`: `MessageType = Literal["info", "error", "command", "warning", "ai", "user"]`. -/
inductive MessageType where
  | info
  | error
  | command
  | warning
  | ai
  | user
deriving DecidableEq, Repr

/-- `state.py`: `SimulationMessage` — a `{type, content}` payload. -/
structure SimulationMessage where
  type : MessageType
  content : String
deriving DecidableEq, Repr

/-- LangChain chat messages as used by `subgraph.finalize` (`HumanMessage`,
`AIMessage`) and stored in `SimulationGraphState.history`. -/
inductive BaseMessage where
  | human (content : String)
  | ai (content : String)
  | system (content : String)
deriving DecidableEq, Repr

/-- `state.py`: `FormQuestion` structure. -/
structure FormQuestion where
  key : String
  text : String
  answer : String
deriving DecidableEq, Repr

/-- `state.py`: `Form` structure (list of questions). -/
structure Form where
  questions : List FormQuestion
deriving DecidableEq, Repr

/-- `state.py`: `SimulationGraphState` (a `total=True` TypedDict, so every
field is present; `scratchpad` holds arbitrary per-node data, modelled as an
opaque string-keyed map since no embedded function reads it). -/
structure SimulationGraphState where
  lifecycle : Lifecycle
  exit_reason : String
  user_retry_budget : Int
  history : List BaseMessage
  user_input : Option SimulationMessage
  simulator_output : Option SimulationMessage
  validator_response : Option SimulationMessage
  updater_response : Option SimulationMessage
  forms : Option (List (String × Form))
  scratchpad : Option (List (String × String))
deriving DecidableEq, Repr

/-- `constants.py`: `MAX_USER_INPUT_LENGTH = 350`. -/
def MAX_USER_INPUT_LENGTH : Nat := 350

/-- `constants.py`: `VALIDATOR_NAME = "subgraph_validator"`. -/
def VALIDATOR_NAME : String := "subgraph_validator"

/-- Python `str.isspace` characters relevant to `str.strip()` on ASCII text:
space, tab, newline, carriage return, vertical tab, form feed. -/
def pyIsSpace (c : Char) : Bool :=
  c = ' ' || c = '\t' || c = '\n' || c = '\r' || c = '\x0b' || c = '\x0c'

/-- Python `str.lower()` on ASCII characters. -/
def pyToLowerChar (c : Char) : Char :=
  if 'A' ≤ c ∧ c ≤ 'Z' then Char.ofNat (c.toNat + 32) else c

/-- Python `str.lower()` (ASCII model). -/
def strToLower (s : String) : String :=
  String.mk (s.data.map pyToLowerChar)

/-- Python `s.startswith(pre)`. -/
def strStartsWith (s pre : String) : Bool :=
  List.isPrefixOf pre.data s.data

/-- Python `s.endswith(suf)`. -/
def strEndsWith (s suf : String) : Bool :=
  List.isSuffixOf suf.data s.data

/-- Python `s[n:]` (character-based slice). -/
def strDrop (s : String) (n : Nat) : String :=
  String.mk (s.data.drop n)

/-- Python `s[:-n]` (character-based slice). -/
def strDropRight (s : String) (n : Nat) : String :=
  String.mk (s.data.take (s.data.length - n))

/-- Python `not s.strip()`: true iff every character of `s` is whitespace
(in particular for the empty string). -/
def pyStripIsEmpty (s : String) : Bool :=
  s.data.all pyIsSpace

/-- `subgraph.validate_input`, fast-path part.  The source checks, in order:
`user_input is None` → auto-valid `info`; `not user_input_content.strip()` →
auto-valid `info`; `len(user_input_content) > MAX_USER_INPUT_LENGTH` →
auto-invalid `error`.  Otherwise it renders a prompt and calls the validator
model; that fall-through is represented by `none` (no model call happens on a
fast path). -/
def validate_input_fast (state : SimulationGraphState) : Option SimulationMessage :=
  let user_input := state.user_input
  let user_input_content := match user_input with
    | some m => m.content
    | none => ""
  match user_input with
  | none =>
      some ⟨.info, "User input is None. Marking validation as passed."⟩
  | some _ =>
      if pyStripIsEmpty user_input_content then
        some ⟨.info, "User input is empty. No validation needed. Marking validation as passed."⟩
      else if user_input_content.length > MAX_USER_INPUT_LENGTH then
        some ⟨.error, "User input exceeds maximum length of " ++ toString MAX_USER_INPUT_LENGTH
          ++ " characters."⟩
      else
        none

/-- The partial state update returned by `subgraph.finalize`: a dict that may
carry a `simulator_output`, a `final_response`, and/or a `history` entry.
A `none` field means the key is absent from the returned dict. -/
structure FinalizePatch where
  simulator_output : Option SimulationMessage := none
  final_response : Option SimulationMessage := none
  history : Option (List BaseMessage) := none
deriving DecidableEq, Repr

/-- `subgraph.finalize`: aggregates the validator's and updater's results.
Branches exactly as in the source: missing validator → generic error output;
validator `"error"` → `{"final_response": validator_response}`; otherwise, if
an updater response exists → surface it and stage `[HumanMessage?, AIMessage]`
for the `history` channel; else → safety-net error output. -/
def finalize (state : SimulationGraphState) : FinalizePatch :=
  let validator_response := state.validator_response
  let updater_response := state.updater_response
  let user_message := state.user_input
  match validator_response with
  | none =>
      { simulator_output := some ⟨.error, "Validation did not run or produced no result."⟩ }
  | some vr =>
      if vr.type = .error then
        { final_response := some vr }
      else
        match updater_response with
        | some ur =>
            let history_updates : List BaseMessage :=
              (match user_message with
                | some um => [BaseMessage.human um.content]
                | none => []) ++ [BaseMessage.ai ur.content]
            { simulator_output := some ur, history := some history_updates }
        | none =>
            { simulator_output := some ⟨.error, "Validation passed, but no response was generated."⟩ }

/-- `state.py` declares `history: Annotated[list[BaseMessage], add_messages]`:
the LangGraph reducer appends a node's staged messages to the committed list.
Applying a finalize patch with no `history` key leaves history untouched. -/
def apply_history_patch (h : List BaseMessage) (p : FinalizePatch) : List BaseMessage :=
  h ++ (p.history.getD [])

/-- A partial state update (`node_update` dict) as observed by
`SimulationGraph.stream` and merged with `current_state.update(node_update)`.
A `none` field means the key is absent; for the `Optional[...]` schema fields
the inner `Option` is the stored value (which may itself be `None`). -/
structure StatePatch where
  lifecycle : Option Lifecycle := none
  exit_reason : Option String := none
  user_retry_budget : Option Int := none
  history : Option (List BaseMessage) := none
  user_input : Option (Option SimulationMessage) := none
  simulator_output : Option (Option SimulationMessage) := none
  validator_response : Option (Option SimulationMessage) := none
  updater_response : Option (Option SimulationMessage) := none
  forms : Option (Option (List (String × Form))) := none
  scratchpad : Option (Option (List (String × String))) := none
deriving DecidableEq, Repr

/-- `current_state.update(node_update)`: keys present in the patch overwrite
the corresponding entries of the tracked state dict. -/
def applyPatch (st : SimulationGraphState) (p : StatePatch) : SimulationGraphState :=
  { lifecycle := p.lifecycle.getD st.lifecycle
    exit_reason := p.exit_reason.getD st.exit_reason
    user_retry_budget := p.user_retry_budget.getD st.user_retry_budget
    history := p.history.getD st.history
    user_input := p.user_input.getD st.user_input
    simulator_output := p.simulator_output.getD st.simulator_output
    validator_response := p.validator_response.getD st.validator_response
    updater_response := p.updater_response.getD st.updater_response
    forms := p.forms.getD st.forms
    scratchpad := p.scratchpad.getD st.scratchpad }

/-- One normalized update arriving from `cgraph.stream` (a node name with its
partial state update), together with the environment observations the wrapper
makes while processing it: whether `cancel_event.is_set()` and whether
`timeout is not None and (now - start) > timeout` at that moment. -/
structure StreamItem where
  node : String
  patch : StatePatch
  cancelSet : Bool
  timedOut : Bool
deriving DecidableEq, Repr

/-- A `{type, content}` event yielded by `SimulationGraph.stream`, or the
terminal `{type: "final_state", state}` event. -/
inductive StreamEvent where
  | msg (type : MessageType) (content : String)
  | final_state (state : SimulationGraphState)
deriving DecidableEq, Repr

/-- Whether an event is the terminal `final_state` event. -/
def StreamEvent.isFinal : StreamEvent → Bool
  | .final_state _ => true
  | .msg _ _ => false

/-- `core.py` lines 287-297: `is_validator_node and is_error and
validator_response` — the update carries a validator response dict whose
`type` is `"error"` and comes from the validator node (case-insensitive name
comparison). -/
def validator_error_of (it : StreamItem) : Option SimulationMessage :=
  match it.patch.validator_response with
  | some (some vr) =>
      if strToLower it.node = strToLower VALIDATOR_NAME ∧ vr.type = .error then some vr
      else none
  | _ => none

/-- The body of `SimulationGraph.stream`'s update loop.  For each normalized
`(node_name, node_update)` item, in source order: merge the patch into
`current_state`; stop on external cancel (yield an `info` notice); stop on
timeout (yield an `error`; `timeoutStr` stands for the `f"{timeout:.1f}"`
rendering); stop on a validator rejection (decrement `user_retry_budget`,
force `EXIT` when the remaining budget is `<= 0`, yield the annotated error);
otherwise forward a present, non-`None` `simulator_output` from any node other
than `__SIMULATION_SUBGRAPH__` and continue.  Returns the yielded events of
the loop and the final merged state. -/
def streamLoop (timeoutStr : String) :
    SimulationGraphState → List StreamItem → List StreamEvent × SimulationGraphState
  | cur, [] => ([], cur)
  | cur, it :: rest =>
    let cur1 := applyPatch cur it.patch
    if it.cancelSet then
      ([.msg .info "Simulation cancelled by user."], cur1)
    else if it.timedOut then
      ([.msg .error ("Simulation timed out after " ++ timeoutStr ++ " seconds.")], cur1)
    else
      match validator_error_of it with
      | some vr =>
          let budget := cur1.user_retry_budget - 1
          let cur2 := { cur1 with validator_response := some vr, user_retry_budget := budget }
          if budget ≤ 0 then
            ([.msg .error (vr.content ++ " User retry budget exhausted; no further retries allowed."
                ++ " Retries left: " ++ toString budget)],
             { cur2 with exit_reason := "user retry budget exhausted", lifecycle := .EXIT })
          else
            ([.msg .error (vr.content ++ " Retries left: " ++ toString budget)], cur2)
      | none =>
          let evs : List StreamEvent :=
            match it.patch.simulator_output with
            | some (some so) =>
                if it.node ≠ "__SIMULATION_SUBGRAPH__" then [.msg so.type so.content] else []
            | _ => []
          (evs ++ (streamLoop timeoutStr cur1 rest).1, (streamLoop timeoutStr cur1 rest).2)

/-- `SimulationGraph.stream`: runs the update loop and then — in the `finally`
block, on every exit path — yields `{"type": "final_state", "state":
current_state}`.  Note that `current_state = dict(state)` is copied *before*
the subgraph-field resets, so the loop starts from the caller's state
unchanged (the resets affect only the dict handed to `cgraph.stream`). -/
def stream (timeoutStr : String) (state : SimulationGraphState) (items : List StreamItem) :
    List StreamEvent × SimulationGraphState :=
  ((streamLoop timeoutStr state items).1 ++ [.final_state (streamLoop timeoutStr state items).2],
   (streamLoop timeoutStr state items).2)

/-- The patch `subgraph.validate_input` returns on a rejection:
`{"validator_response": {"type": "error", "content": m}}`, arriving from the
validator node with no cancel or timeout observed. -/
def validator_rejection (m : String) : StreamItem :=
  { node := VALIDATOR_NAME
    patch := { validator_response := some (some ⟨.error, m⟩) }
    cancelSet := false
    timedOut := false }

/-- A fresh state as a turn would see it (the `make_state` defaults with
lifecycle already advanced to `ENTER` by `RunManager.create`). -/
def stNoInput : SimulationGraphState :=
  { lifecycle := .ENTER
    exit_reason := ""
    user_retry_budget := 6
    history := []
    user_input := none
    simulator_output := none
    validator_response := none
    updater_response := none
    forms := none
    scratchpad := none }

/-- A state whose pending user input is whitespace-only. -/
def stWsInput : SimulationGraphState :=
  { stNoInput with user_input := some ⟨.user, "   "⟩ }

/-- A 351-character input, one over `MAX_USER_INPUT_LENGTH`. -/
def longInput : String :=
  String.mk (List.replicate 351 'a')

/-- A state whose pending user input exceeds the maximum length. -/
def stLongInput : SimulationGraphState :=
  { stNoInput with user_input := some ⟨.user, longInput⟩ }

/-- A state in which the validator rejected the pending input while the
updater had already produced a speculative response. -/
def stRejected : SimulationGraphState :=
  { stNoInput with
      user_input := some ⟨.user, "I fly."⟩
      validator_response := some ⟨.error, "Action outside character abilities."⟩
      updater_response := some ⟨.ai, "You flap your arms."⟩ }

/-- A state in which the validator accepted the pending input and the updater
produced a response. -/
def stAccepted : SimulationGraphState :=
  { stNoInput with
      user_input := some ⟨.user, "I wave."⟩
      validator_response := some ⟨.info, "Valid action"⟩
      updater_response := some ⟨.ai, "The NPC nods."⟩ }

/-- C9: validator fast paths.  Missing `user_input`, or whitespace-only
content, yields an `"info"` validator response without reaching the model
call; content longer than `MAX_USER_INPUT_LENGTH` (and not whitespace-only,
per the source's `elif` order) yields an `"error"` response without reaching
the model call.  A `some` result of `validate_input_fast` is precisely a fast
path that returns before any model is invoked. -/
theorem validate_input_fast_paths :
    (∀ st : SimulationGraphState, st.user_input = none →
      ∃ c, validate_input_fast st = some ⟨.info, c⟩) ∧
    (∀ (st : SimulationGraphState) (ui : SimulationMessage), st.user_input = some ui →
      pyStripIsEmpty ui.content = true →
      ∃ c, validate_input_fast st = some ⟨.info, c⟩) ∧
    (∀ (st : SimulationGraphState) (ui : SimulationMessage), st.user_input = some ui →
      pyStripIsEmpty ui.content = false →
      MAX_USER_INPUT_LENGTH < ui.content.length →
      ∃ c, validate_input_fast st = some ⟨.error, c⟩) := by
  refine ⟨?_, ?_, ?_⟩
  · intro st h
    simp [validate_input_fast, h]
  · intro st ui h hws
    simp [validate_input_fast, h, hws]
  · intro st ui h hws hlen
    simp [validate_input_fast, h, hws, hlen]

set_option maxRecDepth 4096 in
/-- C9 witness: the three fast paths at concrete states. -/
theorem validate_input_fast_paths_witness :
    (∃ c, validate_input_fast stNoInput = some ⟨.info, c⟩) ∧
    (∃ c, validate_input_fast stWsInput = some ⟨.info, c⟩) ∧
    (∃ c, validate_input_fast stLongInput = some ⟨.error, c⟩) :=
  ⟨validate_input_fast_paths.1 stNoInput rfl,
   validate_input_fast_paths.2.1 stWsInput ⟨.user, "   "⟩ rfl (by decide),
   validate_input_fast_paths.2.2 stLongInput ⟨.user, longInput⟩ rfl (by decide) (by decide)⟩

/-- C2: evaluating `finalize` at a state whose `validator_response` has type
`"error"` shows the returned patch leaves `simulator_output` unset and instead
writes the validator message under the key `final_response` — a key that is
not a `SimulationGraphState` field and is read nowhere else in the engine, so
the validator's message never becomes the turn's `simulator_output` through
`finalize`, contradicting the node's own docstring and the surfacing used by
every sibling branch. -/
theorem finalize_rejection_loses_validator_message :
    finalize stRejected =
      { simulator_output := none
        final_response := some ⟨.error, "Action outside character abilities."⟩
        history := none } := by
  rfl

/-- C3: subgraph rejection invariant.  (1) When `validator_response` is
missing or has type `"error"`, the finalize patch carries no `history` entry,
so the committed history length is unchanged.  (2) When the validator reports
`"info"` and an updater response exists, the patch stages exactly the user's
message (when present) followed by the updater's message.  (3) Conversely, a
patch that stages history can only arise from a present, non-`"error"`
validator response together with an updater response. -/
theorem finalize_rejection_invariant :
    (∀ st : SimulationGraphState,
      (st.validator_response = none ∨ ∃ v, st.validator_response = some v ∧ v.type = .error) →
      (finalize st).history = none ∧
        apply_history_patch st.history (finalize st) = st.history) ∧
    (∀ (st : SimulationGraphState) (v u : SimulationMessage),
      st.validator_response = some v → v.type = .info → st.updater_response = some u →
      (finalize st).history = some ((match st.user_input with
        | some um => [BaseMessage.human um.content]
        | none => []) ++ [BaseMessage.ai u.content])) ∧
    (∀ st : SimulationGraphState, (finalize st).history ≠ none →
      ∃ v u, st.validator_response = some v ∧ v.type ≠ .error ∧
        st.updater_response = some u) := by
  refine ⟨?_, ?_, ?_⟩
  · intro st h
    rcases h with h | ⟨v, hv, hty⟩
    · simp [finalize, h, apply_history_patch]
    · simp [finalize, hv, hty, apply_history_patch]
  · intro st v u hv hty hu
    simp [finalize, hv, hty, hu]
  · intro st h
    cases hv : st.validator_response with
    | none => simp [finalize, hv] at h
    | some v =>
      by_cases hty : v.type = .error
      · simp [finalize, hv, hty] at h
      · cases hu : st.updater_response with
        | none => simp [finalize, hv, hty, hu] at h
        | some u => exact ⟨v, u, rfl, hty, rfl⟩

/-- C3 witness: the invariant at concrete rejected and accepted states. -/
theorem finalize_rejection_invariant_witness :
    ((finalize stRejected).history = none ∧
      apply_history_patch stRejected.history (finalize stRejected) = stRejected.history) ∧
    (finalize stAccepted).history = some ((match stAccepted.user_input with
      | some um => [BaseMessage.human um.content]
      | none => []) ++ [BaseMessage.ai "The NPC nods."]) ∧
    (∃ v u, stAccepted.validator_response = some v ∧ v.type ≠ .error ∧
      stAccepted.updater_response = some u) :=
  ⟨finalize_rejection_invariant.1 stRejected (Or.inr ⟨_, rfl, rfl⟩),
   finalize_rejection_invariant.2.1 stAccepted ⟨.info, "Valid action"⟩ ⟨.ai, "The NPC nods."⟩
     rfl rfl rfl,
   finalize_rejection_invariant.2.2 stAccepted (by decide)⟩

/-- Every event yielded inside the stream loop is a `{type, content}` message,
never the terminal `final_state` event (that one is produced only by the
`finally` block). -/
theorem streamLoop_no_final (t : String) :
    ∀ (items : List StreamItem) (cur : SimulationGraphState),
      ∀ e ∈ (streamLoop t cur items).1, e.isFinal = false := by
  intro items
  induction items with
  | nil =>
    intro cur e he
    simp [streamLoop] at he
  | cons it rest ih =>
    intro cur e he
    simp only [streamLoop] at he
    split at he
    · simp at he
      subst he; rfl
    · split at he
      · simp at he
        subst he; rfl
      · split at he
        · split at he
          · simp at he
            subst he; rfl
          · simp at he
            subst he; rfl
        · rw [List.mem_append] at he
          rcases he with he | he
          · split at he
            · split at he
              · simp at he
                subst he; rfl
              · simp at he
            · simp at he
          · exact ih _ e he

/-- C5: guaranteed terminal event.  Every run of the streaming wrapper —
normal completion, external cancellation, timeout, or validator-failure early
stop — yields a sequence ending in exactly one `final_state` event carrying
the latest merged state, with no `final_state` event anywhere earlier. -/
theorem stream_guaranteed_terminal (t : String) (st : SimulationGraphState)
    (items : List StreamItem) :
    ∃ pre fin, stream t st items = (pre ++ [.final_state fin], fin) ∧
      ∀ e ∈ pre, e.isFinal = false :=
  ⟨(streamLoop t st items).1, (streamLoop t st items).2, rfl,
   fun e he => streamLoop_no_final t items st e he⟩

/-- Processing a single validator rejection: the wrapper decrements
`user_retry_budget` by one and forces `lifecycle = EXIT` with exit reason
`"user retry budget exhausted"` exactly when the decremented budget is
`<= 0`. -/
theorem stream_single_rejection (t m : String) (st : SimulationGraphState) :
    (stream t st [validator_rejection m]).2 =
      if st.user_retry_budget - 1 ≤ 0 then
        { st with validator_response := some ⟨.error, m⟩
                  user_retry_budget := st.user_retry_budget - 1
                  exit_reason := "user retry budget exhausted"
                  lifecycle := .EXIT }
      else
        { st with validator_response := some ⟨.error, m⟩
                  user_retry_budget := st.user_retry_budget - 1 } := by
  simp only [stream, streamLoop, validator_rejection, validator_error_of, applyPatch]
  norm_num
  split <;> rfl

/-- A fresh turn state whose retry budget is exactly 1. -/
def stBudgetOne : SimulationGraphState :=
  { stNoInput with user_retry_budget := 1 }

/-- A fresh turn state whose retry budget is exactly 2. -/
def stBudgetTwo : SimulationGraphState :=
  { stNoInput with user_retry_budget := 2 }

/-- C1 counterexample: with `user_retry_budget = 1`, already the *first*
validator rejection decrements the budget to 0 and forces
`lifecycle = EXIT` — the run does not survive to a second rejection, contrary
to the claim. -/
theorem retry_budget_one_first_rejection_exits :
    stBudgetOne.user_retry_budget = 1 ∧
    (stream "" stBudgetOne [validator_rejection "Invalid action."]).2.lifecycle = .EXIT ∧
    (stream "" stBudgetOne [validator_rejection "Invalid action."]).2.user_retry_budget = 0 := by
  refine ⟨rfl, ?_, ?_⟩ <;>
    simp [stream_single_rejection, stBudgetOne, stNoInput]

/-- C1 amended: each validator rejection decrements `user_retry_budget` by
exactly one, and `EXIT` is forced exactly when the decremented budget is
exhausted (`<= 0`).  Hence a turn starting with budget 1 exits on the first
rejection, and two consecutive rejections force `EXIT` after the second
exactly when streaming starts with budget 2. -/
theorem retry_exhaustion_amended :
    (∀ (t : String) (st : SimulationGraphState) (m : String),
      (stream t st [validator_rejection m]).2.user_retry_budget = st.user_retry_budget - 1 ∧
      (st.lifecycle ≠ .EXIT →
        ((stream t st [validator_rejection m]).2.lifecycle = .EXIT ↔
          st.user_retry_budget - 1 ≤ 0))) ∧
    (∀ (t : String) (st : SimulationGraphState) (m m' : String),
      st.user_retry_budget = 2 → st.lifecycle ≠ .EXIT →
      (stream t st [validator_rejection m]).2.lifecycle ≠ .EXIT ∧
      (stream t st [validator_rejection m]).2.user_retry_budget = 1 ∧
      (stream t (stream t st [validator_rejection m]).2 [validator_rejection m']).2.lifecycle
        = .EXIT ∧
      (stream t (stream t st [validator_rejection m]).2 [validator_rejection m']).2.exit_reason
        = "user retry budget exhausted") := by
  constructor
  · intro t st m
    rw [stream_single_rejection]
    constructor
    · split <;> rfl
    · intro hne
      split
      · simp_all
      · simp_all
  · intro t st m m' hb hne
    rw [stream_single_rejection, stream_single_rejection]
    rw [if_neg (by omega)]
    simp only [hb]
    rw [if_pos (by omega)]
    simp [hne]

/-- C1 witness: the amended behavior at a concrete budget-2 state. -/
theorem retry_exhaustion_amended_witness :
    (stream "" stBudgetTwo [validator_rejection "No."]).2.user_retry_budget
      = stBudgetTwo.user_retry_budget - 1 ∧
    (stream "" stBudgetTwo [validator_rejection "No."]).2.lifecycle ≠ .EXIT ∧
    (stream "" stBudgetTwo [validator_rejection "No."]).2.user_retry_budget = 1 ∧
    (stream "" (stream "" stBudgetTwo [validator_rejection "No."]).2
        [validator_rejection "Still no."]).2.lifecycle = .EXIT :=
  ⟨(retry_exhaustion_amended.1 "" stBudgetTwo "No.").1,
   (retry_exhaustion_amended.2 "" stBudgetTwo "No." "Still no." rfl (by decide)).1,
   (retry_exhaustion_amended.2 "" stBudgetTwo "No." "Still no." rfl (by decide)).2.1,
   (retry_exhaustion_amended.2 "" stBudgetTwo "No." "Still no." rfl (by decide)).2.2.1⟩

/-- A single-quote character, used to build messages that quote values. -/
def sq : String :=
  String.mk ['\x27']

/-- Python `str.strip()` restricted to ASCII whitespace. -/
def pyStrip (s : String) : String :=
  String.mk (((s.data.dropWhile pyIsSpace).reverse.dropWhile pyIsSpace).reverse)

/-- `needle.isPrefixOf`-based scan: does `needle` occur as a contiguous
sublist?  Implements Python's `needle in hay` substring test. -/
def subListOf (needle : List Char) : List Char → Bool
  | [] => needle.isEmpty
  | c :: t => List.isPrefixOf needle (c :: t) || subListOf needle t

/-- Python `needle in hay` on strings. -/
def strContains (hay needle : String) : Bool :=
  subListOf needle.data hay.data

/-- `config.py`: one item of a conditional edge's clause list — either
`{if: expr, then: node}` (`IfThen`) or `{else: node}` (`ElseOnly`). -/
inductive ConditionalItem where
  | ifThen (if_ : String) (then_ : String)
  | elseOnly (else_ : String)
deriving DecidableEq, Repr

/-- The state mapping as seen by `conditions.py`: the `messages` entry used by
the two inline fast paths (message contents, `""` for a missing content), and
the outcome of the restricted `eval` over the normalized expression source
(`bool(eval(s, safe_globals, {"state": state}))`, `False` on any exception),
which the embedding treats as an oracle attached to the state. -/
structure CondState where
  messages : List String
  evalCond : String → Bool

/-- `conditions.last_text`: content of the last message, `""` if none. -/
def last_text (state : CondState) : String :=
  (state.messages.getLast?).getD ""

/-- `conditions.eval_condition`: `False` on an empty expression; strip; peel a
`{{ ... }}` wrapper; normalize `true`/`false`/`null` tokens to Python; then
evaluate with the restricted `eval` (the state's oracle). -/
def eval_condition (expr : String) (state : CondState) : Bool :=
  if expr = "" then false
  else
    let s := pyStrip expr
    let s := if strStartsWith s "\x7b\x7b" ∧ strEndsWith s "\x7d\x7d" then
      pyStrip (strDropRight (strDrop s 2) 2) else s
    let s := (((((s.replace " true" " True").replace "true" "True").replace
      " false" " False").replace "false" "False").replace " null" " None").replace
      "null" "None"
    state.evalCond s

/-- `conditions.predicate`: a missing (or empty) expression counts as a bare
`else` and is truthy; `"len(messages) == 0"` and `reply_contains(...)` are
handled inline; everything else goes through `eval_condition`. -/
def predicate (expr : Option String) (state : CondState) : Bool :=
  match expr with
  | none => true
  | some e =>
    if e = "" then true
    else
      let s := pyStrip e
      if s = "len(messages) == 0" then state.messages.isEmpty
      else if strStartsWith s "reply_contains(" ∧ strEndsWith s ")" then
        let arg := pyStrip (strDropRight (strDrop s "reply_contains(".length) 1)
        let needle :=
          if (strStartsWith arg sq ∧ strEndsWith arg sq) ∨
              (strStartsWith arg "\"" ∧ strEndsWith arg "\"") then
            strDropRight (strDrop arg 1) 1
          else arg
        strContains (strToLower (last_text state)) (strToLower needle)
      else eval_condition s state

/-- `SimulationGraph._build_router_from_clauses`: the returned router walks
the clause list in order; an `if` clause routes to its `then` destination when
its predicate is truthy; an `else` clause routes unconditionally; falling off
the end routes to `"__end__"` (LangGraph's end-of-turn sentinel). -/
def router (clauses : List ConditionalItem) (state : CondState) : String :=
  match clauses with
  | [] => "__end__"
  | .ifThen cond dest :: rest =>
      if predicate (some cond) state then dest else router rest state
  | .elseOnly dest :: _ => dest

/-- Spec-side formulation: whether a clause matches the state (an `if` clause
matches when its predicate is truthy; an `else` clause always matches). -/
def clauseMatches (state : CondState) : ConditionalItem → Bool
  | .ifThen cond _ => predicate (some cond) state
  | .elseOnly _ => true

/-- Spec-side formulation: a clause's destination. -/
def clauseDest : ConditionalItem → String
  | .ifThen _ d => d
  | .elseOnly d => d

/-- C6: router determinism.  For every state and ordered clause list, the
compiled router returns the destination of the *first* matching clause in
declaration order — an `if` clause matches when its predicate evaluates
truthy, an `else` clause always matches when reached — and returns the
end-of-turn sentinel `"__end__"` when no clause matches. -/
theorem router_first_match (clauses : List ConditionalItem) (state : CondState) :
    router clauses state =
      (((clauses.find? (clauseMatches state)).map clauseDest).getD "__end__") := by
  induction clauses with
  | nil => rfl
  | cons c rest ih =>
    cases c with
    | ifThen cond dest =>
      cases h : predicate (some cond) state
      · rw [List.find?_cons_of_neg]
        · simpa [router, h] using ih
        · simp [clauseMatches, h]
      · rw [List.find?_cons_of_pos]
        · simp [router, h, clauseDest]
        · simp [clauseMatches, h]
    | elseOnly dest =>
      rw [List.find?_cons_of_pos]
      · simp [router, clauseDest]
      · simp [clauseMatches]

/-- `RunManager.step`'s dispatch outcome: a local exit command, a local
feedback acknowledgement (state annotated, graph not invoked), a skip because
the run already exited, or a graph invocation with the given raw input staged
as the pending user action. -/
inductive StepOutcome where
  | exitCommand (reason : String)
  | feedbackAck
  | skippedExited
  | invokedGraph (input : Option String)
deriving DecidableEq, Repr

/-- First whitespace-delimited token of an already-stripped string —
`parts[0]` of Python's `s.split(maxsplit=1)`. -/
def firstToken (t : String) : String :=
  String.mk (t.data.takeWhile (fun c => !(pyIsSpace c)))

/-- Python `s.lstrip("/\\")`. -/
def lstrip_slashes (s : String) : String :=
  String.mk (s.data.dropWhile (fun c => c = '/' || c = '\\'))

/-- `RunManager.step`, control-flow skeleton for a string (or absent) input.
In source order: a stripped input starting with `/` or `\` is parsed into a
command token (lowercased, leading slashes stripped); `quit`/`stop`/`exit`
exit the run and return; `feedback`/`fb` annotate the state and return; any
other command only logs a warning and *falls through*; then, unless the run
has exited, the input is staged as `event_draft` and the graph is invoked. -/
def step_dispatch (exited : Bool) (user_input : Option String) : StepOutcome :=
  match user_input with
  | some s =>
      let t := pyStrip s
      if strStartsWith t "/" || strStartsWith t "\\" then
        let cmd := lstrip_slashes (strToLower (firstToken t))
        if cmd = "quit" ∨ cmd = "stop" ∨ cmd = "exit" then
          .exitCommand "received exit command"
        else if cmd = "feedback" ∨ cmd = "fb" then
          .feedbackAck
        else if exited then .skippedExited
        else .invokedGraph (some s)
      else if exited then .skippedExited
      else .invokedGraph (some s)
  | none => if exited then .skippedExited else .invokedGraph none

/-- C7 counterexample: `/save run1` strips to a string starting with `/`, yet
`step` does not handle it locally — the unrecognized command falls through
and the compiled graph is invoked with the raw input staged. -/
theorem step_slash_input_reaches_graph :
    strStartsWith (pyStrip "/save run1") "/" = true ∧
    step_dispatch false (some "/save run1") = .invokedGraph (some "/save run1") := by
  exact ⟨rfl, rfl⟩

/-- C7 amended: only the *recognized* command tokens are handled locally —
`quit`/`stop`/`exit` exit the run, `feedback`/`fb` annotate the state and
continue without invoking the graph; any other input whose stripped form
begins with `/` falls through to the normal path and (when the run has not
exited) invokes the compiled graph with the input staged. -/
theorem step_command_handling_amended :
    ∀ (exited : Bool) (s : String), strStartsWith (pyStrip s) "/" = true →
      ((lstrip_slashes (strToLower (firstToken (pyStrip s))) = "quit" ∨
        lstrip_slashes (strToLower (firstToken (pyStrip s))) = "stop" ∨
        lstrip_slashes (strToLower (firstToken (pyStrip s))) = "exit") →
          step_dispatch exited (some s) = .exitCommand "received exit command") ∧
      ((lstrip_slashes (strToLower (firstToken (pyStrip s))) = "feedback" ∨
        lstrip_slashes (strToLower (firstToken (pyStrip s))) = "fb") →
          step_dispatch exited (some s) = .feedbackAck) ∧
      (lstrip_slashes (strToLower (firstToken (pyStrip s))) ≠ "quit" →
       lstrip_slashes (strToLower (firstToken (pyStrip s))) ≠ "stop" →
       lstrip_slashes (strToLower (firstToken (pyStrip s))) ≠ "exit" →
       lstrip_slashes (strToLower (firstToken (pyStrip s))) ≠ "feedback" →
       lstrip_slashes (strToLower (firstToken (pyStrip s))) ≠ "fb" →
          step_dispatch exited (some s) =
            if exited then .skippedExited else .invokedGraph (some s)) := by
  intro exited s hs
  refine ⟨?_, ?_, ?_⟩
  · intro hcmd
    simp [step_dispatch, hs, hcmd]
  · intro hcmd
    rcases hcmd with h | h <;> simp [step_dispatch, hs, h]
  · intro h1 h2 h3 h4 h5
    simp [step_dispatch, hs, h1, h2, h3, h4, h5]

/-- C7 witness: the amended dispatch at concrete inputs — `/quit` exits,
`/fb great game` acknowledges feedback, `/save run1` reaches the graph. -/
theorem step_command_handling_witness :
    step_dispatch false (some "/quit") = .exitCommand "received exit command" ∧
    step_dispatch false (some "/fb great game") = .feedbackAck ∧
    step_dispatch false (some "/save run1") =
      if false then .skippedExited else .invokedGraph (some "/save run1") :=
  ⟨(step_command_handling_amended false "/quit" rfl).1 (Or.inl rfl),
   (step_command_handling_amended false "/fb great game" rfl).2.1 (Or.inr rfl),
   (step_command_handling_amended false "/save run1" rfl).2.2 (by decide) (by decide)
     (by decide) (by decide) (by decide)⟩

/-- Case-insensitive literal matcher: consume the characters of `lit`
(lowercase) from the front of `cs`, comparing lowercased; return the rest on
success.  Implements the literal parts of the compiled regex
`output\s*format\s*:\s*\{.*?\}` under `re.IGNORECASE`. -/
def matchCI : List Char → List Char → Option (List Char)
  | [], cs => some cs
  | _ :: _, [] => none
  | l :: ls, c :: cs => if pyToLowerChar c = l then matchCI ls cs else none

/-- Does the regex `output\s*format\s*:\s*\{.*?\}` (IGNORECASE | DOTALL)
match at the very start of `cs`?  `\s*` is maximal-munch whitespace (which is
equivalent here because each following literal starts with a non-whitespace
character), and `\{.*?\}` succeeds iff some later `}` exists. -/
def matchOutputFormatAt (cs : List Char) : Bool :=
  match matchCI "output".data cs with
  | none => false
  | some r1 =>
    match matchCI "format".data (r1.dropWhile pyIsSpace) with
    | none => false
    | some r2 =>
      match r2.dropWhile pyIsSpace with
      | [] => false
      | a :: r3 =>
        if a = ':' then
          match r3.dropWhile pyIsSpace with
          | [] => false
          | b :: r4 => if b = '\x7b' then r4.any (fun c => c = '\x7d') else false
        else false

/-- `re.search`: try the pattern at every start position. -/
def hasOutputFormat : List Char → Bool
  | [] => false
  | c :: cs => matchOutputFormatAt (c :: cs) || hasOutputFormat cs

/-- `pattern.search(sys_tmpl)` of `SimulationGraph._make_node_fn` for the
compiled pattern `output\s*format\s*:\s*\{.*?\}` (IGNORECASE | DOTALL). -/
def output_format_search (s : String) : Bool :=
  hasOutputFormat s.data

/-- Spec-side: `l` spells `lit` case-insensitively. -/
def CIMatches (l : List Char) (lit : String) : Prop :=
  l.map pyToLowerChar = lit.data

/-- Spec-side: every character of `l` is whitespace. -/
def AllWs (l : List Char) : Prop :=
  ∀ c ∈ l, pyIsSpace c = true

/-- Spec-side reading of "the template contains a literal
`Output Format: {...}` block": the text decomposes around `output`,
whitespace, `format`, whitespace, `:`, whitespace, `{`, anything, `}`. -/
def HasOutputFormatBlock (s : String) : Prop :=
  ∃ pre o w1 f w2 w3 mid post,
    s.data = pre ++ o ++ w1 ++ f ++ w2 ++ ':' :: w3 ++ '\x7b' :: mid ++ '\x7d' :: post ∧
    CIMatches o "output" ∧ CIMatches f "format" ∧ AllWs w1 ∧ AllWs w2 ∧ AllWs w3

theorem matchCI_some_iff (lit : List Char) :
    ∀ (cs r : List Char), matchCI lit cs = some r ↔
      ∃ p, cs = p ++ r ∧ p.map pyToLowerChar = lit := by
  induction lit with
  | nil =>
    intro cs r
    constructor
    · intro h
      simp only [matchCI, Option.some.injEq] at h
      exact ⟨[], by simp [h], rfl⟩
    · rintro ⟨p, hcs, hp⟩
      have hpn : p = [] := by
        cases p with
        | nil => rfl
        | cons a as => simp at hp
      subst hpn
      simp only [List.nil_append] at hcs
      simp [matchCI, hcs]
  | cons l ls ih =>
    intro cs r
    cases cs with
    | nil =>
      constructor
      · intro h
        simp [matchCI] at h
      · rintro ⟨p, hcs, hp⟩
        cases p with
        | nil => simp at hp
        | cons a as => simp at hcs
    | cons c cs' =>
      constructor
      · intro h
        simp only [matchCI] at h
        by_cases hc : pyToLowerChar c = l
        · rw [if_pos hc] at h
          obtain ⟨p', hcs', hp'⟩ := (ih cs' r).mp h
          exact ⟨c :: p', by simp [hcs'], by simp [hc, hp']⟩
        · rw [if_neg hc] at h
          exact absurd h (by simp)
      · rintro ⟨p, hcs, hp⟩
        cases p with
        | nil => simp at hp
        | cons a as =>
          simp only [List.cons_append, List.cons.injEq] at hcs
          obtain ⟨rfl, hcs'⟩ := hcs
          simp only [List.map_cons, List.cons.injEq] at hp
          obtain ⟨hl, hls⟩ := hp
          simp only [matchCI, if_pos hl]
          exact (ih cs' r).mpr ⟨as, hcs', hls⟩

theorem dropWhile_decomp (p : Char → Bool) (cs : List Char) :
    ∃ w, cs = w ++ cs.dropWhile p ∧ ∀ c ∈ w, p c = true :=
  ⟨cs.takeWhile p, (List.takeWhile_append_dropWhile p cs).symm,
   fun _ hc => List.mem_takeWhile_imp hc⟩

theorem dropWhile_ws_prefix (w : List Char) (x : Char) (r : List Char)
    (hw : ∀ c ∈ w, pyIsSpace c = true) (hx : pyIsSpace x = false) :
    (w ++ x :: r).dropWhile pyIsSpace = x :: r := by
  induction w with
  | nil => simp [List.dropWhile_cons, hx]
  | cons a as ih =>
    have ha : pyIsSpace a = true := hw a (by simp)
    simp only [List.cons_append, List.dropWhile_cons, ha, if_true]
    exact ih (fun c hc => hw c (by simp [hc]))

theorem ws_lower_self (c : Char) (h : pyIsSpace c = true) : pyToLowerChar c = c := by
  simp only [pyIsSpace, Bool.or_eq_true, decide_eq_true_eq] at h
  rcases h with ((((rfl | rfl) | rfl) | rfl) | rfl) | rfl <;> rfl

theorem not_ws_of_lower (c x : Char) (h : pyToLowerChar c = x)
    (hx : pyIsSpace x = false) : pyIsSpace c = false := by
  by_contra hc
  have hc' : pyIsSpace c = true := by
    cases hcc : pyIsSpace c
    · exact absurd hcc hc
    · rfl
  rw [ws_lower_self c hc'] at h
  rw [h] at hc'
  rw [hc'] at hx
  exact Bool.noConfusion hx

theorem any_close_iff (l : List Char) :
    (l.any (fun c => c = '\x7d')) = true ↔ ∃ mid post, l = mid ++ '\x7d' :: post := by
  rw [List.any_eq_true]
  constructor
  · rintro ⟨a, ha, haeq⟩
    have : a = '\x7d' := by simpa using haeq
    subst this
    exact List.append_of_mem ha
  · rintro ⟨mid, post, rfl⟩
    exact ⟨'\x7d', by simp, by simp⟩

theorem matchOutputFormatAt_iff (cs : List Char) :
    matchOutputFormatAt cs = true ↔
      ∃ o w1 f w2 w3 mid post,
        cs = o ++ w1 ++ f ++ w2 ++ ':' :: w3 ++ '\x7b' :: mid ++ '\x7d' :: post ∧
        CIMatches o "output" ∧ CIMatches f "format" ∧ AllWs w1 ∧ AllWs w2 ∧ AllWs w3 := by
  constructor
  · intro h
    unfold matchOutputFormatAt at h
    cases h1 : matchCI "output".data cs with
    | none => simp only [h1] at h; exact Bool.noConfusion h
    | some r1 =>
      simp only [h1] at h
      obtain ⟨o, rfl, ho⟩ := (matchCI_some_iff _ _ _).mp h1
      obtain ⟨w1, hw1eq, hw1⟩ := dropWhile_decomp pyIsSpace r1
      cases h2 : matchCI "format".data (r1.dropWhile pyIsSpace) with
      | none => simp only [h2] at h; exact Bool.noConfusion h
      | some r2 =>
        simp only [h2] at h
        obtain ⟨f, hfeq, hf⟩ := (matchCI_some_iff _ _ _).mp h2
        obtain ⟨w2, hw2eq, hw2⟩ := dropWhile_decomp pyIsSpace r2
        cases h3 : r2.dropWhile pyIsSpace with
        | nil => simp only [h3] at h; exact Bool.noConfusion h
        | cons a r3 =>
          simp only [h3] at h
          by_cases ha : a = ':'
          · rw [if_pos ha] at h
            subst ha
            obtain ⟨w3, hw3eq, hw3⟩ := dropWhile_decomp pyIsSpace r3
            cases h4 : r3.dropWhile pyIsSpace with
            | nil => simp only [h4] at h; exact Bool.noConfusion h
            | cons b r4 =>
              simp only [h4] at h
              by_cases hb : b = '\x7b'
              · rw [if_pos hb] at h
                subst hb
                obtain ⟨mid, post, rfl⟩ := (any_close_iff r4).mp h
                refine ⟨o, w1, f, w2, w3, mid, post, ?_, ho, hf, hw1, hw2, hw3⟩
                rw [hw1eq, hfeq, hw2eq, h3, hw3eq, h4]
                simp
              · rw [if_neg hb] at h
                exact absurd h (by simp)
          · rw [if_neg ha] at h
            exact absurd h (by simp)
  · rintro ⟨o, w1, f, w2, w3, mid, post, rfl, ho, hf, hw1, hw2, hw3⟩
    have hfne : ∃ f0 ftl, f = f0 :: ftl ∧ pyIsSpace f0 = false := by
      cases f with
      | nil => simp [CIMatches] at hf
      | cons f0 ftl =>
        refine ⟨f0, ftl, rfl, ?_⟩
        simp only [CIMatches, List.map_cons] at hf
        have hlow : pyToLowerChar f0 = 'f' := by
          have := congrArg (fun l => l.head?) hf
          simpa using this
        exact not_ws_of_lower f0 'f' hlow (by rfl)
    obtain ⟨f0, ftl, rfl, hf0⟩ := hfne
    unfold matchOutputFormatAt
    have h1 : matchCI "output".data
        (o ++ w1 ++ (f0 :: ftl) ++ w2 ++ ':' :: w3 ++ '\x7b' :: mid ++ '\x7d' :: post) =
        some (w1 ++ (f0 :: ftl) ++ w2 ++ ':' :: w3 ++ '\x7b' :: mid ++ '\x7d' :: post) := by
      refine (matchCI_some_iff _ _ _).mpr ⟨o, ?_, ho⟩
      simp
    simp only [h1]
    have hdw1 : (w1 ++ (f0 :: ftl) ++ w2 ++ ':' :: w3 ++ '\x7b' :: mid ++ '\x7d' :: post).dropWhile
        pyIsSpace = f0 :: (ftl ++ w2 ++ ':' :: w3 ++ '\x7b' :: mid ++ '\x7d' :: post) := by
      have := dropWhile_ws_prefix w1 f0
        (ftl ++ w2 ++ ':' :: w3 ++ '\x7b' :: mid ++ '\x7d' :: post) hw1 hf0
      simpa using this
    have h2 : matchCI "format".data
        (f0 :: (ftl ++ w2 ++ ':' :: w3 ++ '\x7b' :: mid ++ '\x7d' :: post)) =
        some (w2 ++ ':' :: w3 ++ '\x7b' :: mid ++ '\x7d' :: post) := by
      refine (matchCI_some_iff _ _ _).mpr ⟨f0 :: ftl, ?_, hf⟩
      simp
    simp only [hdw1, h2]
    have hdw2 : (w2 ++ ':' :: w3 ++ '\x7b' :: mid ++ '\x7d' :: post).dropWhile pyIsSpace =
        ':' :: (w3 ++ '\x7b' :: mid ++ '\x7d' :: post) := by
      have := dropWhile_ws_prefix w2 ':' (w3 ++ '\x7b' :: mid ++ '\x7d' :: post) hw2 (by rfl)
      simpa using this
    simp only [hdw2]
    simp only [if_true]
    have hdw3 : (w3 ++ '\x7b' :: mid ++ '\x7d' :: post).dropWhile pyIsSpace =
        '\x7b' :: (mid ++ '\x7d' :: post) := by
      have := dropWhile_ws_prefix w3 '\x7b' (mid ++ '\x7d' :: post) hw3 (by rfl)
      simpa using this
    simp only [hdw3]
    simp only [if_true]
    exact (any_close_iff _).mpr ⟨mid, post, rfl⟩

theorem hasOutputFormat_iff (cs : List Char) :
    hasOutputFormat cs = true ↔
      ∃ pre rest, cs = pre ++ rest ∧ matchOutputFormatAt rest = true := by
  constructor
  · intro h
    induction cs with
    | nil => simp [hasOutputFormat] at h
    | cons c cs' ih =>
      simp only [hasOutputFormat, Bool.or_eq_true] at h
      rcases h with h | h
      · exact ⟨[], c :: cs', by simp, h⟩
      · obtain ⟨pre, rest, heq, hm⟩ := ih h
        exact ⟨c :: pre, rest, by simp [heq], hm⟩
  · rintro ⟨pre, rest, rfl, hm⟩
    induction pre with
    | nil =>
      cases rest with
      | nil => simp [matchOutputFormatAt, matchCI] at hm
      | cons r rs => simpa [hasOutputFormat] using Or.inl hm
    | cons p pre' ih =>
      simp only [List.cons_append, hasOutputFormat, Bool.or_eq_true]
      exact Or.inr ih

/-- The executable search agrees with the spec's reading of "contains an
`Output Format: {...}` block". -/
theorem output_format_search_iff (s : String) :
    output_format_search s = true ↔ HasOutputFormatBlock s := by
  unfold output_format_search HasOutputFormatBlock
  rw [hasOutputFormat_iff]
  constructor
  · rintro ⟨pre, rest, heq, hm⟩
    obtain ⟨o, w1, f, w2, w3, mid, post, rfl, ho, hf, hw1, hw2, hw3⟩ :=
      (matchOutputFormatAt_iff rest).mp hm
    exact ⟨pre, o, w1, f, w2, w3, mid, post, by simp [heq], ho, hf, hw1, hw2, hw3⟩
  · rintro ⟨pre, o, w1, f, w2, w3, mid, post, heq, ho, hf, hw1, hw2, hw3⟩
    refine ⟨pre, o ++ w1 ++ f ++ w2 ++ ':' :: w3 ++ '\x7b' :: mid ++ '\x7d' :: post,
      by simp [heq], ?_⟩
    exact (matchOutputFormatAt_iff _).mpr ⟨o, w1, f, w2, w3, mid, post, rfl, ho, hf, hw1, hw2, hw3⟩

/-- `config.py`: a `Node` of the graph configuration.  Builtin kwargs and
`additional_kwargs` values are opaque to the checks modelled here. -/
structure Node where
  name : String
  kind : String
  kwargs : List (String × String) := []
  provider : Option String := none
  model : Option String := none
  system_template : Option String := none
  additional_kwargs : Option (List (String × String)) := none
deriving DecidableEq, Repr

/-- `Node._validate_kind_specifics`, custom branch: the keys among
`provider`, `model`, `system_template` whose value is falsy (absent or
empty). -/
def custom_node_missing (n : Node) : List String :=
  (if n.provider.getD "" = "" then ["provider"] else []) ++
  (if n.model.getD "" = "" then ["model"] else []) ++
  (if n.system_template.getD "" = "" then ["system_template"] else [])

/-- `Node._validate_kind_specifics` for a `kind = "custom"` node: reject when
any of provider/model/system_template is missing, or when `kwargs` is
non-empty (the builtin branch is not needed by the properties proved here). -/
def validate_custom_node (n : Node) : Except String Unit :=
  if custom_node_missing n ≠ [] then
    .error ("custom node " ++ sq ++ n.name ++ sq ++ " missing: "
      ++ String.intercalate ", " (custom_node_missing n))
  else if n.kwargs ≠ [] then
    .error ("custom node " ++ sq ++ n.name ++ sq ++ " must not define " ++ sq ++ "kwargs"
      ++ sq ++ "; put inputs at the top level (provider/model/system_template).")
  else .ok ()

/-- The configuration error raised by `SimulationGraph._make_node_fn` when the
`Output Format` block is absent (`{sys_tmpl!r}` is modelled as the quoted
template text). -/
def output_format_err (n : Node) (tmpl : String) : String :=
  "Node " ++ sq ++ n.name ++ sq
    ++ " must include an \"Output Format: \x7b...\x7d\" block in system_template "
    ++ "(on node or node.kwargs).\nTemplate:\n" ++ sq ++ tmpl ++ sq

/-- The `Output Format` enforcement of `SimulationGraph._make_node_fn`:
with a truthy `system_template` lacking the pattern, raise the configuration
error; otherwise pass.  (The `node.config` fallback in the source is dead:
`Node` has no `config` attribute, so `getattr(node, "config", None)` is
`None`.) -/
def enforce_output_format (n : Node) : Except String Unit :=
  match n.system_template with
  | some t =>
      if t ≠ "" ∧ output_format_search t = false then .error (output_format_err n t)
      else .ok ()
  | none => .ok ()

/-- C8: output-format compile enforcement.  For a custom node past kind
validation (hence with a non-empty `system_template`), the compile-time check
passes exactly when the template contains an `Output Format: {...}` block
(spec-side decomposition reading); and whenever the check fails for a node
the raised configuration error is `output_format_err` whose text contains the
node's name. -/
theorem output_format_compile_enforcement :
    (∀ (n : Node) (t : String), n.kind = "custom" → validate_custom_node n = .ok () →
      n.system_template = some t →
      (enforce_output_format n = .ok () ↔ HasOutputFormatBlock t)) ∧
    (∀ (n : Node) (t : String), n.system_template = some t →
      enforce_output_format n ≠ .ok () →
      enforce_output_format n = .error (output_format_err n t) ∧
      ∃ pre post, (output_format_err n t).data = pre ++ n.name.data ++ post) := by
  constructor
  · intro n t _ hval hst
    have hmiss : custom_node_missing n = [] := by
      by_contra hne
      rw [validate_custom_node, if_pos hne] at hval
      exact Except.noConfusion hval
    have htne : t ≠ "" := by
      intro hteq
      have hgd : n.system_template.getD "" = "" := by rw [hst, hteq]; rfl
      simp only [custom_node_missing, hgd] at hmiss
      simp at hmiss
    simp only [enforce_output_format, hst]
    constructor
    · intro hok
      by_cases hsearch : output_format_search t = true
      · exact (output_format_search_iff t).mp hsearch
      · have hfalse : output_format_search t = false := by
          cases hv : output_format_search t
          · rfl
          · exact absurd hv hsearch
        rw [if_pos ⟨htne, hfalse⟩] at hok
        exact Except.noConfusion hok
    · intro hblock
      have hsearch : output_format_search t = true := (output_format_search_iff t).mpr hblock
      rw [if_neg]
      rintro ⟨-, hfalse⟩
      rw [hsearch] at hfalse
      exact Bool.noConfusion hfalse
  · intro n t hst hfail
    simp only [enforce_output_format, hst] at hfail ⊢
    split at hfail
    · rename_i hC
      rw [if_pos hC]
      refine ⟨rfl, ("Node " ++ sq).data,
        (sq ++ " must include an \"Output Format: \x7b...\x7d\" block in system_template "
          ++ "(on node or node.kwargs).\nTemplate:\n" ++ sq ++ t ++ sq).data, ?_⟩
      simp [output_format_err, String.data_append, List.append_assoc]
    · exact absurd rfl hfail

/-- A custom-node system template containing a literal `Output Format` block. -/
def tmplWithBlock : String :=
  "Reply with H ONLY.\nOutput Format: \x7b \"type\": \"ai\" \x7d"

/-- A valid custom node whose template carries the block. -/
def nodeWithBlock : Node :=
  { name := "agentA"
    kind := "custom"
    provider := some "openrouter"
    model := some "openai/gpt-oss-20b:free"
    system_template := some tmplWithBlock }

/-- A custom node whose template lacks the block. -/
def nodeNoBlock : Node :=
  { nodeWithBlock with name := "agentB", system_template := some "Reply with H ONLY." }

/-- C8 witness: the compiling node's template does contain the block (via the
`.ok` direction of the enforcement theorem evaluated at `nodeWithBlock`), and
the non-compiling node raises the configuration error naming it. -/
theorem output_format_compile_enforcement_witness :
    HasOutputFormatBlock tmplWithBlock ∧
    (enforce_output_format nodeNoBlock =
        .error (output_format_err nodeNoBlock "Reply with H ONLY.") ∧
      ∃ pre post, (output_format_err nodeNoBlock "Reply with H ONLY.").data =
        pre ++ nodeNoBlock.name.data ++ post) := by
  constructor
  · exact (output_format_compile_enforcement.1 nodeWithBlock tmplWithBlock rfl rfl rfl).mp rfl
  · refine output_format_compile_enforcement.2 nodeNoBlock "Reply with H ONLY." rfl ?_
    have h : enforce_output_format nodeNoBlock =
        .error (output_format_err nodeNoBlock "Reply with H ONLY.") := rfl
    simp [h]

/-- Digits-only natural parser (the integer-literal core of Python's `eval`
of a numeric threshold). -/
def parseNatDigits (l : List Char) : Option Nat :=
  match l with
  | [] => none
  | _ =>
    l.foldl (fun acc c =>
      match acc with
      | none => none
      | some a => if c.isDigit then some (a * 10 + (c.toNat - 48)) else none) (some 0)

/-- Integer literal with optional sign, as accepted by the Python expression
`{value}{condition}` after the comparison operator. -/
def parsePyInt (s : String) : Option Int :=
  match s.data with
  | '-' :: ds => (parseNatDigits ds).map (fun n => -(n : Int))
  | '+' :: ds => (parseNatDigits ds).map (fun n => (n : Int))
  | ds => (parseNatDigits ds).map (fun n => (n : Int))

/-- `RunManager._ensure_stopping_conditions`, numeric case: the guarded
`eval(f"{attr_value}{condition}")` for an integer attribute.  Models the
comparison fragment Python accepts there (an operator from `>= <= == != > <`
followed by an integer literal); any other text raises inside `eval` and is
caught and skipped by the source — represented by `none`. -/
def eval_numeric_condition (v : Int) (cond : String) : Option Bool :=
  let c := pyStrip cond
  if strStartsWith c ">=" then (parsePyInt (pyStrip (strDrop c 2))).map (fun n => decide (v ≥ n))
  else if strStartsWith c "<=" then
    (parsePyInt (pyStrip (strDrop c 2))).map (fun n => decide (v ≤ n))
  else if strStartsWith c "==" then
    (parsePyInt (pyStrip (strDrop c 2))).map (fun n => decide (v = n))
  else if strStartsWith c "!=" then
    (parsePyInt (pyStrip (strDrop c 2))).map (fun n => decide (v ≠ n))
  else if strStartsWith c ">" then
    (parsePyInt (pyStrip (strDrop c 1))).map (fun n => decide (v > n))
  else if strStartsWith c "<" then
    (parsePyInt (pyStrip (strDrop c 1))).map (fun n => decide (v < n))
  else none

/-- A run attribute value as read by `getattr(self, attr)`: numeric (`turns`,
`runtime_seconds`) or string. -/
inductive AttrValue where
  | intVal (n : Int)
  | strVal (s : String)
deriving DecidableEq, Repr

/-- The `RunManager` fields involved in stopping-condition evaluation:
`exited`/`exit_reason` (run flags), the graph state's `lifecycle` and
`exit_reason`, the computed `turns` (`len(state["events"])`) and
`runtime_seconds`, and the `stopping_conditions` map (an ordered dict). -/
structure RunManager where
  name : String
  source : String
  exited : Bool
  exit_reason : String
  lifecycle : Lifecycle
  state_exit_reason : String
  turns : Int
  runtime_seconds : Int
  stopping_conditions : List (String × List String)
deriving DecidableEq, Repr

/-- `getattr(self, attr)` for the attributes consulted by stopping
conditions; `none` models `hasattr(self, attr)` being false (the source logs
and skips such attributes). -/
def getAttr (rm : RunManager) : String → Option AttrValue
  | "turns" => some (.intVal rm.turns)
  | "runtime_seconds" => some (.intVal rm.runtime_seconds)
  | "name" => some (.strVal rm.name)
  | "source" => some (.strVal rm.source)
  | "exit_reason" => some (.strVal rm.exit_reason)
  | _ => none

/-- `RunManager.exit`: idempotent; on first call force the state lifecycle to
`EXIT`, mark the run exited and record the reason (persistence and the end
timestamp are external effects not modelled). -/
def exit_run (rm : RunManager) (reason : String) : RunManager :=
  if rm.exited then rm
  else { rm with lifecycle := .EXIT, exited := true, exit_reason := reason }

/-- The inner condition loop of `_ensure_stopping_conditions` for one
attribute: first satisfied condition wins; numeric attributes use the guarded
`eval` comparison, string attributes use substring containment; evaluation
errors (including a failed guard) skip the condition. -/
def check_attr_conditions (v : AttrValue) (attr : String) : List String → Option String
  | [] => none
  | cond :: rest =>
    match v with
    | .intVal n =>
      match eval_numeric_condition n cond with
      | some true => some ("stopping condition met: " ++ attr ++ " " ++ cond)
      | _ => check_attr_conditions v attr rest
    | .strVal sv =>
      if strContains sv cond then
        some ("stopping condition met: " ++ attr ++ " contains " ++ sq ++ cond ++ sq)
      else check_attr_conditions v attr rest

/-- The outer loop of `_ensure_stopping_conditions`: walk the condition map
in order, skipping unknown attributes, and stop at the first met condition. -/
def find_stop_reason (rm : RunManager) : List (String × List String) → Option String
  | [] => none
  | (attr, conds) :: rest =>
    match getAttr rm attr with
    | none => find_stop_reason rm rest
    | some v =>
      match check_attr_conditions v attr conds with
      | some reason => some reason
      | none => find_stop_reason rm rest

/-- `RunManager._ensure_stopping_conditions`: if the graph lifecycle is
already `EXIT`, exit with the state's reason (or a default); an empty
condition map raises `ValueError`; otherwise exit with the first met
condition's reason, if any. -/
def ensure_stopping_conditions (rm : RunManager) : Except String RunManager :=
  if rm.lifecycle = .EXIT then
    .ok (exit_run rm (if rm.state_exit_reason ≠ "" then rm.state_exit_reason
      else "Game graph lifecycle is EXIT. No reason given."))
  else if rm.stopping_conditions.isEmpty then
    .error "stopping_conditions cannot be empty."
  else
    match find_stop_reason rm rm.stopping_conditions with
    | some reason => .ok (exit_run rm reason)
    | none => .ok rm

/-- `run_manager.py`: the default `stopping_conditions` factory. -/
def default_stopping_conditions : List (String × List String) :=
  [("turns", [">500"]), ("runtime_seconds", [">3600"])]

theorem eval_numeric_gt2 (v : Int) :
    eval_numeric_condition v ">2" = some (decide (v > 2)) := rfl

theorem eval_numeric_gt500 (v : Int) :
    eval_numeric_condition v ">500" = some (decide (v > 500)) := rfl

theorem eval_numeric_gt3600 (v : Int) :
    eval_numeric_condition v ">3600" = some (decide (v > 3600)) := rfl

/-- C4: stopping-condition evaluation.  With `stopping_conditions =
{"turns": [">2"]}` and 3 recorded turns, the check exits the run and the exit
reason mentions `turns`; with the default policy the check exits the run
exactly when turns exceed 500 or elapsed runtime exceeds 3600 seconds. -/
theorem stopping_conditions_policy :
    (∀ rm : RunManager, rm.stopping_conditions = [("turns", [">2"])] →
      rm.turns = 3 → rm.lifecycle ≠ .EXIT → rm.exited = false →
      ∃ rm', ensure_stopping_conditions rm = .ok rm' ∧ rm'.exited = true ∧
        strContains rm'.exit_reason "turns" = true) ∧
    (∀ rm : RunManager, rm.stopping_conditions = default_stopping_conditions →
      rm.lifecycle ≠ .EXIT → rm.exited = false →
      ∃ rm', ensure_stopping_conditions rm = .ok rm' ∧
        (rm'.exited = true ↔ 500 < rm.turns ∨ 3600 < rm.runtime_seconds)) := by
  constructor
  · intro rm hsc ht hlc hex
    refine ⟨exit_run rm "stopping condition met: turns >2", ?_, ?_, ?_⟩
    · simp only [ensure_stopping_conditions, if_neg hlc, hsc]
      simp [find_stop_reason, getAttr, check_attr_conditions, ht, eval_numeric_gt2]
    · simp [exit_run, hex]
    · simp only [exit_run, hex, Bool.false_eq_true, if_false]
      rfl
  · intro rm hsc hlc hex
    by_cases h1 : 500 < rm.turns
    · refine ⟨exit_run rm "stopping condition met: turns >500", ?_, ?_⟩
      · simp only [ensure_stopping_conditions, if_neg hlc, hsc, default_stopping_conditions]
        simp [find_stop_reason, getAttr, check_attr_conditions, eval_numeric_gt500, h1]
      · simp [exit_run, hex, h1]
    · by_cases h2 : 3600 < rm.runtime_seconds
      · refine ⟨exit_run rm "stopping condition met: runtime_seconds >3600", ?_, ?_⟩
        · simp only [ensure_stopping_conditions, if_neg hlc, hsc, default_stopping_conditions]
          simp [find_stop_reason, getAttr, check_attr_conditions, eval_numeric_gt500,
            eval_numeric_gt3600, h1, h2]
        · simp [exit_run, hex, h2]
      · refine ⟨rm, ?_, ?_⟩
        · simp only [ensure_stopping_conditions, if_neg hlc, hsc, default_stopping_conditions]
          simp [find_stop_reason, getAttr, check_attr_conditions, eval_numeric_gt500,
            eval_numeric_gt3600, h1, h2]
        · simp [hex, h1, h2]

/-- A mid-run manager with three recorded turns and `{"turns": [">2"]}`. -/
def rmTurns3 : RunManager :=
  { name := "cli-mygame-20240101"
    source := "cli"
    exited := false
    exit_reason := ""
    lifecycle := .UPDATE
    state_exit_reason := ""
    turns := 3
    runtime_seconds := 10
    stopping_conditions := [("turns", [">2"])] }

/-- A mid-run manager on the default policy with 501 recorded turns. -/
def rmDefault : RunManager :=
  { rmTurns3 with turns := 501, stopping_conditions := default_stopping_conditions }

/-- C4 witness: the policy at the two concrete managers. -/
theorem stopping_conditions_policy_witness :
    (∃ rm', ensure_stopping_conditions rmTurns3 = .ok rm' ∧ rm'.exited = true ∧
      strContains rm'.exit_reason "turns" = true) ∧
    (∃ rm', ensure_stopping_conditions rmDefault = .ok rm' ∧
      (rm'.exited = true ↔ 500 < rmDefault.turns ∨ 3600 < rmDefault.runtime_seconds)) :=
  ⟨stopping_conditions_policy.1 rmTurns3 rfl rfl (by decide) rfl,
   stopping_conditions_policy.2 rmDefault rfl (by decide) rfl⟩

/-- A value stored in the `make_state` dict: `None`, a string, an int, a
message list (history), a `SimulationMessage`, a forms map, or a scratchpad
map — the value shapes of the ten `SimulationGraphState` fields. -/
inductive SValue where
  | none_
  | str (s : String)
  | int (n : Int)
  | msgs (l : List BaseMessage)
  | msg (m : SimulationMessage)
  | formsVal (f : List (String × Form))
  | scratchVal (d : List (String × String))
deriving DecidableEq, Repr

/-- `state.make_state`: the `base` dict of defaults, in source insertion
order. -/
def base_state : List (String × SValue) :=
  [("lifecycle", .str "INIT"),
   ("exit_reason", .str ""),
   ("history", .msgs []),
   ("user_input", .none_),
   ("validator_response", .none_),
   ("updater_response", .none_),
   ("simulator_output", .none_),
   ("user_retry_budget", .int 6),
   ("forms", .none_),
   ("scratchpad", .none_)]

/-- The schema's field names.  In the source, computing allowed keys from the
`TypeAdapter` raises (`TypeAdapter` has no `model_fields`), so the `except`
branch falls back to exactly `set(base.keys())`. -/
def schema_keys : List String :=
  base_state.map Prod.fst

/-- `StateAdapter.validate_python`, per-field: does the value fit the
`SimulationGraphState` annotation for that key? -/
def state_value_ok (k : String) (v : SValue) : Bool :=
  match k, v with
  | "lifecycle", .str s =>
      s = "INIT" || s = "ENTER" || s = "UPDATE" || s = "EXIT" || s = "COMPLETE"
  | "exit_reason", .str _ => true
  | "user_retry_budget", .int _ => true
  | "history", .msgs _ => true
  | "user_input", .none_ => true
  | "user_input", .msg _ => true
  | "validator_response", .none_ => true
  | "validator_response", .msg _ => true
  | "updater_response", .none_ => true
  | "updater_response", .msg _ => true
  | "simulator_output", .none_ => true
  | "simulator_output", .msg _ => true
  | "forms", .none_ => true
  | "forms", .formsVal _ => true
  | "scratchpad", .none_ => true
  | "scratchpad", .scratchVal _ => true
  | _, _ => false

/-- `state.make_state`: drop (with a logged warning, never an exception)
override keys outside the schema; merge `{**base, **overrides}` (base
insertion order, overridden values winning); validate the result, raising
`ValidationError` on an ill-typed value. -/
def make_state (overrides : List (String × SValue)) :
    Except String (List (String × SValue)) :=
  let allowed := base_state.map Prod.fst
  let filtered := overrides.filter (fun kv => decide (kv.1 ∈ allowed))
  let merged := base_state.map (fun kv => (kv.1, (filtered.lookup kv.1).getD kv.2))
  if merged.all (fun kv => state_value_ok kv.1 kv.2) then .ok merged
  else .error "Invalid SimulationGraphState"

theorem map_entry_lookup (g : String → SValue → SValue) (l : List (String × SValue))
    (k : String) :
    (l.map (fun kv => (kv.1, g kv.1 kv.2))).lookup k = (l.lookup k).map (g k) := by
  induction l with
  | nil => rfl
  | cons kv rest ih =>
    cases hkk : (k == kv.1) with
    | false => simp [List.lookup, hkk, ih]
    | true =>
      have hk : k = kv.1 := by simpa using hkk
      simp [List.lookup, hkk]
      rw [hk]

theorem filter_lookup_of_allowed (ovr : List (String × SValue)) (k : String)
    (hk : k ∈ schema_keys) :
    (ovr.filter (fun kv => decide (kv.1 ∈ base_state.map Prod.fst))).lookup k =
      ovr.lookup k := by
  induction ovr with
  | nil => rfl
  | cons kv rest ih =>
    by_cases hkv : kv.1 ∈ base_state.map Prod.fst
    · rw [List.filter_cons_of_pos (by simpa using hkv)]
      cases hkk : (k == kv.1) with
      | false => simp [List.lookup, hkk, ih]
      | true => simp [List.lookup, hkk]
    · rw [List.filter_cons_of_neg (by simpa using hkv)]
      have hne : (k == kv.1) = false := by
        have : k ≠ kv.1 := by
          intro heq
          exact hkv (heq ▸ (by simpa [schema_keys] using hk))
        simpa using this
      simp [List.lookup, hne, ih]

/-- C10: default-state contract of `make_state`.  (1) Any successful result
has exactly the ten schema keys, in base order.  (2) With no overrides the
defaults are `lifecycle = "INIT"`, `exit_reason = ""`, empty history, `None`
for the six optional fields, and `user_retry_budget = 6`.  (3) Overrides
using only non-schema keys are silently dropped: the call still succeeds and
returns exactly the defaults (no exception).  (4) A schema-keyed override
replaces the default in the returned state. -/
theorem make_state_contract :
    (∀ (ovr st : List (String × SValue)), make_state ovr = .ok st →
      st.map Prod.fst =
        ["lifecycle", "exit_reason", "history", "user_input", "validator_response",
         "updater_response", "simulator_output", "user_retry_budget", "forms",
         "scratchpad"]) ∧
    (∃ st, make_state [] = .ok st ∧
      st.lookup "lifecycle" = some (.str "INIT") ∧
      st.lookup "exit_reason" = some (.str "") ∧
      st.lookup "history" = some (.msgs []) ∧
      st.lookup "user_input" = some .none_ ∧
      st.lookup "validator_response" = some .none_ ∧
      st.lookup "updater_response" = some .none_ ∧
      st.lookup "simulator_output" = some .none_ ∧
      st.lookup "user_retry_budget" = some (.int 6) ∧
      st.lookup "forms" = some .none_ ∧
      st.lookup "scratchpad" = some .none_) ∧
    (∀ ovr : List (String × SValue), (∀ kv ∈ ovr, kv.1 ∉ schema_keys) →
      make_state ovr = .ok base_state) ∧
    (∀ (ovr st : List (String × SValue)) (k : String) (v : SValue),
      make_state ovr = .ok st → k ∈ schema_keys → ovr.lookup k = some v →
      st.lookup k = some v) := by
  refine ⟨?_, ?_, ?_, ?_⟩
  · intro ovr st hok
    simp only [make_state] at hok
    split at hok
    · cases hok
      simp [base_state]
    · cases hok
  · exact ⟨base_state, rfl, rfl, rfl, rfl, rfl, rfl, rfl, rfl, rfl, rfl, rfl⟩
  · intro ovr hdrop
    have hfil : ovr.filter (fun kv => decide (kv.1 ∈ base_state.map Prod.fst)) = [] := by
      rw [List.filter_eq_nil_iff]
      intro kv hkv
      simpa [schema_keys] using hdrop kv hkv
    simp only [make_state, hfil]
    rfl
  · intro ovr st k v hok hk hov
    have hst : st = base_state.map (fun kv => (kv.1,
        ((ovr.filter (fun kv => decide (kv.1 ∈ base_state.map Prod.fst))).lookup kv.1).getD
          kv.2)) := by
      simp only [make_state] at hok
      split at hok
      · cases hok; rfl
      · cases hok
    rw [hst, map_entry_lookup
      (fun k d => ((ovr.filter (fun kv => decide (kv.1 ∈ base_state.map Prod.fst))).lookup
        k).getD d)]
    have hbase : ∃ d, base_state.lookup k = some d := by
      simp only [schema_keys, base_state] at hk
      simp only [List.map_cons, List.map_nil, List.mem_cons, List.not_mem_nil,
        or_false] at hk
      rcases hk with rfl | rfl | rfl | rfl | rfl | rfl | rfl | rfl | rfl | rfl <;>
        exact ⟨_, rfl⟩
    obtain ⟨d, hd⟩ := hbase
    rw [hd, filter_lookup_of_allowed ovr k hk, hov]
    rfl

/-- An override replacing the retry budget. -/
def ovrBudget : List (String × SValue) :=
  [("user_retry_budget", SValue.int 3)]

/-- The state `make_state` builds from `ovrBudget`. -/
def stBudget3 : List (String × SValue) :=
  [("lifecycle", .str "INIT"),
   ("exit_reason", .str ""),
   ("history", .msgs []),
   ("user_input", .none_),
   ("validator_response", .none_),
   ("updater_response", .none_),
   ("simulator_output", .none_),
   ("user_retry_budget", .int 3),
   ("forms", .none_),
   ("scratchpad", .none_)]

/-- C10 witness: the contract at concrete overrides — a schema-keyed override
replaces the default, an unknown-keyed override is dropped without an error,
and the key set is exactly the schema. -/
theorem make_state_contract_witness :
    stBudget3.map Prod.fst =
      ["lifecycle", "exit_reason", "history", "user_input", "validator_response",
       "updater_response", "simulator_output", "user_retry_budget", "forms",
       "scratchpad"] ∧
    make_state [("bogus_key", SValue.int 1)] = .ok base_state ∧
    stBudget3.lookup "user_retry_budget" = some (.int 3) :=
  ⟨make_state_contract.1 ovrBudget stBudget3 rfl,
   make_state_contract.2.2.1 [("bogus_key", SValue.int 1)] (by decide),
   make_state_contract.2.2.2 ovrBudget stBudget3 "user_retry_budget" (SValue.int 3)
     rfl (by decide) rfl⟩

end DCS
